import Mathlib

/-!
# Verification of the botmanager workload/execution engine

Shallow embedding of the service layer of `backend/app/services/`
(`workload_service.py`, `execution_service.py`, `process_service.py`,
`scheduler.py`) over the data model of `backend/app/models/`.

Conventions of the embedding:
* UUIDs are `Nat`; `datetime.utcnow()` is passed in as an explicit `now : Nat`
  parameter at every operation that reads the clock.
* The database is a list of rows; a SQLAlchemy `scalar_one_or_none()` over a
  primary-key filter is `List.find?`; an ORM attribute assignment followed by
  `commit()` is a `List.map` replacing the row with the matching `id`.
* `SELECT ... FOR UPDATE SKIP LOCKED` with a single-row `UPDATE` + `COMMIT`
  makes each `get_next_item` call one atomic step of the store; concurrent
  claimants are therefore modelled as an arbitrary sequential interleaving of
  these atomic steps (`claim_many`).
-/

namespace BotManager

/-- Enum `PriorityEnum` from `backend/app/models/workload.py` (a `str` enum). -/
inductive PriorityEnum where
  | LOW
  | NORMAL
  | HIGH
  | CRITICAL
deriving DecidableEq, Repr

/-- The string value each `PriorityEnum` member carries; this is what the
`Column(String(20))` of `ItemFila.priority` actually stores, and hence what
`ORDER BY priority DESC` compares. -/
def PriorityEnum.value : PriorityEnum → String
  | .LOW => "low"
  | .NORMAL => "normal"
  | .HIGH => "high"
  | .CRITICAL => "critical"

/-- Enum `StatusItemFilaEnum`. The model file declares
PENDING/PROCESSING/COMPLETED/FAILED/RETRY; the services and the API also
assign `RUNNING`, so it is included as a member here. -/
inductive StatusItemFilaEnum where
  | PENDING
  | PROCESSING
  | RUNNING
  | COMPLETED
  | FAILED
  | RETRY
deriving DecidableEq, Repr

/-- Enum `TipoExcecaoEnum` from `backend/app/models/workload.py`. -/
inductive TipoExcecaoEnum where
  | BUSINESS
  | SYSTEM
  | APPLICATION
deriving DecidableEq, Repr

/-- Enum `SeverityEnum` from `backend/app/models/workload.py`. -/
inductive SeverityEnum where
  | LOW
  | MEDIUM
  | HIGH
  | CRITICAL
deriving DecidableEq, Repr

/-- One `item_fila` row, restricted to the columns the embedded operations
read or write.  `deferred_until` appears in the `ItemFilaBase` schema
(`backend/app/schemas/workload.py`) and in the spec but is never consulted by
any service operation; it is carried inertly so that claims that mention it
can be stated. -/
structure ItemFila where
  id : Nat
  tenant_id : Nat
  queue_name : String
  priority : PriorityEnum
  status : StatusItemFilaEnum
  payload : String
  retry_count : Nat
  max_retries : Nat
  deferred_until : Option Nat
  locked_by : Option Nat
  locked_at : Option Nat
  completed_at : Option Nat
  last_error : Option String
  created_at : Nat
  execucao_id : Option Nat
deriving DecidableEq, Repr

/-- The payload a robot posts on failure (`ExcecaoCreate` in
`backend/app/schemas/workload.py`), restricted to the fields `fail_item`
consumes. -/
structure ExcecaoCreate where
  tipo : TipoExcecaoEnum
  severity : SeverityEnum
  message : String
  stack_trace : Option String
deriving DecidableEq, Repr

/-- One `excecao` row as `WorkloadService.fail_item` constructs it. -/
structure Excecao where
  tenant_id : Nat
  item_fila_id : Option Nat
  tipo : TipoExcecaoEnum
  severity : SeverityEnum
  message : String
  stack_trace : Option String
deriving DecidableEq, Repr

/-! ## WorkloadService.get_next_item

`backend/app/services/workload_service.py`, lines 33-69.  The query filters
`tenant_id == tenant_id`, `queue_name == queue_name`,
`status == StatusItemFilaEnum.PENDING`, `locked_by IS NULL`, orders by
`priority DESC` (the stored string value) then `created_at ASC`, takes one
row `FOR UPDATE SKIP LOCKED`, then sets `status = RUNNING`,
`locked_by = agent_id`, `locked_at = utcnow()`, `retry_count += 1` and
commits. -/

/-- The `WHERE` clause of the claim query. -/
def claimEligible (tenant_id : Nat) (queue_name : String) (i : ItemFila) : Bool :=
  decide (i.tenant_id = tenant_id ∧ i.queue_name = queue_name ∧
    i.status = StatusItemFilaEnum.PENDING ∧ i.locked_by = none)

/-- Lexicographic (byte-order) comparison of character lists: how a SQL
`ORDER BY` compares the ASCII values stored in a `VARCHAR` column. -/
def charListLt : List Char → List Char → Bool
  | [], [] => false
  | [], _ :: _ => true
  | _ :: _, [] => false
  | a :: as, b :: bs =>
      if a.toNat < b.toNat then true
      else if b.toNat < a.toNat then false
      else charListLt as bs

/-- Less-than on `VARCHAR` values. -/
def varcharLt (a b : String) : Bool := charListLt a.data b.data

/-- The `ORDER BY priority DESC, created_at ASC` clause as a strict "sorts before"
test on two rows.  `priority` is persisted as its string value in a
`VARCHAR(20)` column, so `DESC` compares those strings lexicographically. -/
def ordersBefore (a b : ItemFila) : Bool :=
  varcharLt b.priority.value a.priority.value ||
    (decide (a.priority.value = b.priority.value) && decide (a.created_at < b.created_at))

/-- The `LIMIT 1` over the ordered result set: fold keeping the row that sorts
first (the earlier row of the table wins exact ties, which the SQL leaves
unspecified). -/
def selectNext (tenant_id : Nat) (queue_name : String) (db : List ItemFila) :
    Option ItemFila :=
  (db.filter (claimEligible tenant_id queue_name)).foldl
    (fun acc i =>
      match acc with
      | none => some i
      | some a => some (if ordersBefore i a then i else a))
    none

/-- The claiming update applied to the selected row. -/
def claimUpdate (now agent_id : Nat) (i : ItemFila) : ItemFila :=
  { i with
      status := StatusItemFilaEnum.RUNNING
      locked_by := some agent_id
      locked_at := some now
      retry_count := i.retry_count + 1 }

/-- Embeds `WorkloadService.get_next_item`: returns the (refreshed, post-update)
claimed item and the new table state, or `none` with the table unchanged. -/
def get_next_item (now tenant_id : Nat) (queue_name : String) (agent_id : Nat)
    (db : List ItemFila) : Option ItemFila × List ItemFila :=
  match selectNext tenant_id queue_name db with
  | none => (none, db)
  | some i =>
      let i' := claimUpdate now agent_id i
      (some i', db.map (fun j => if j.id = i.id then i' else j))

/-- The row update `complete_item` applies to the found item. -/
def completedRow (now : Nat) (item : ItemFila) : ItemFila :=
  { item with
      status := StatusItemFilaEnum.COMPLETED
      completed_at := some now
      locked_by := none }

/-- Embeds `WorkloadService.complete_item` (`workload_service.py`, lines 71-81):
looks the item up by `id` and `tenant_id`; if found — with no check of its
current status — sets `status = COMPLETED`, `completed_at = utcnow()`,
`locked_by = None`; if absent, does nothing. -/
def complete_item (now tenant_id item_id : Nat) (db : List ItemFila) :
    List ItemFila :=
  match db.find? (fun i => decide (i.id = item_id ∧ i.tenant_id = tenant_id)) with
  | none => db
  | some item =>
      db.map (fun j => if j.id = item.id then completedRow now item else j)

/-- The row update of `fail_item`'s retry branch: back to PENDING for
another robot to pick up, lock released, `last_error` recording the retry. -/
def failRetryRow (erro : ExcecaoCreate) (item : ItemFila) : ItemFila :=
  { item with
      status := StatusItemFilaEnum.PENDING
      locked_by := none
      last_error := some ("Retry " ++ toString item.retry_count ++ ": " ++ erro.message) }

/-- The row update of `fail_item`'s terminal branch: FAILED with
`completed_at` stamped; `locked_by` is not touched in this branch. -/
def failFailedRow (now : Nat) (erro : ExcecaoCreate) (item : ItemFila) : ItemFila :=
  { item with
      status := StatusItemFilaEnum.FAILED
      completed_at := some now
      last_error := some erro.message }

/-- The `Excecao` row `fail_item` appends. -/
def novaExcecao (tenant_id : Nat) (erro : ExcecaoCreate) (item : ItemFila) :
    Excecao :=
  { tenant_id := tenant_id
    item_fila_id := some item.id
    tipo := erro.tipo
    severity := erro.severity
    message := erro.message
    stack_trace := erro.stack_trace }

/-- Embeds `WorkloadService.fail_item` (`workload_service.py`, lines 83-115).
`status_final` starts as FAILED; when the item exists and
`erro.tipo == SYSTEM and item.retry_count <= item.max_retries` the item goes
back to PENDING (the call reports RETRY), the lock is cleared and
`last_error` records the retry; otherwise the item goes to FAILED with
`completed_at` stamped and `locked_by` left untouched.  In both branches an
`Excecao` row is appended.  `retry_count` is not modified here (it is
incremented by `get_next_item`), and no deferral timestamp is written. -/
def fail_item (now tenant_id item_id : Nat) (erro : ExcecaoCreate)
    (db : List ItemFila) (excs : List Excecao) :
    StatusItemFilaEnum × List ItemFila × List Excecao :=
  match db.find? (fun i => decide (i.id = item_id ∧ i.tenant_id = tenant_id)) with
  | none => (StatusItemFilaEnum.FAILED, db, excs)
  | some item =>
      if erro.tipo = TipoExcecaoEnum.SYSTEM ∧ item.retry_count ≤ item.max_retries then
        (StatusItemFilaEnum.RETRY,
          db.map (fun j => if j.id = item.id then failRetryRow erro item else j),
          excs ++ [novaExcecao tenant_id erro item])
      else
        (StatusItemFilaEnum.FAILED,
          db.map (fun j => if j.id = item.id then failFailedRow now erro item else j),
          excs ++ [novaExcecao tenant_id erro item])

/-- N claim calls on the same tenant and queue.  Each `get_next_item` is one
atomic step of the store (`FOR UPDATE SKIP LOCKED` plus a single-row commit),
so any concurrent schedule of claimants is some sequence of these steps. -/
def claim_many (now tenant_id : Nat) (queue_name : String) (agents : List Nat)
    (db : List ItemFila) : List (Option ItemFila) × List ItemFila :=
  match agents with
  | [] => ([], db)
  | a :: rest =>
      let r := get_next_item now tenant_id queue_name a db
      let rec' := claim_many now tenant_id queue_name rest r.2
      (r.1 :: rec'.1, rec'.2)

/-! ## Execution ledger and process registry -/

/-- Enum `StatusExecucaoEnum` from `backend/app/models/core.py`. -/
inductive StatusExecucaoEnum where
  | QUEUED
  | RUNNING
  | COMPLETED
  | FAILED
  | CANCELLED
  | TIMEOUT
deriving DecidableEq, Repr

/-- Error taxonomy of `backend/app/core/exceptions.py` as raised by the
embedded services. -/
inductive AppError where
  | notFoundError
  | businessError
  /-- CPython `NameError`: `execution_service.py` line 10 imports
  `ItemFila, StatusItemFilaEnum` from `app.models.workload` with
  `PriorityEnum` commented out of the import list, yet line 63 evaluates
  `priority=PriorityEnum.NORMAL`. -/
  | nameErrorPriorityEnum
deriving DecidableEq, Repr

/-- One `execucao` row, restricted to the columns
`ExecutionService.update_execution_status` reads or writes. -/
structure Execucao where
  id : Nat
  tenant_id : Nat
  processo_id : Nat
  versao_id : Nat
  status : StatusExecucaoEnum
  end_time : Option Nat
deriving DecidableEq, Repr

/-- One `processo` row, restricted to the columns the embedded services
consult. -/
structure Processo where
  id : Nat
  tenant_id : Nat
  name : String
  is_active : Bool
  deleted_at : Option Nat
deriving DecidableEq, Repr

/-- One `versao_processo` row, restricted to the columns the embedded
services consult. -/
structure VersaoProcesso where
  id : Nat
  tenant_id : Nat
  processo_id : Nat
  version : String
  is_active : Bool
  deleted_at : Option Nat
deriving DecidableEq, Repr

/-- Schema `ExecutionUpdate` (`backend/app/schemas/execution.py`): the requested new
status, optional error details (reduced to their `message`), and an optional
explicit `end_time`. -/
structure ExecutionUpdate where
  status : StatusExecucaoEnum
  error_details : Option String
  end_time : Option Nat
deriving DecidableEq, Repr

/-- The tables `ExecutionService` touches. -/
structure LedgerState where
  processos : List Processo
  versoes : List VersaoProcesso
  execucoes : List Execucao
  itens : List ItemFila
deriving DecidableEq, Repr

/-- Embeds `ExecutionService.trigger_manual_execution`
(`execution_service.py`, lines 18-74), step by step:
1. look the process up by `id` and `tenant_id` (no soft-delete filter here);
   `NotFoundError` if absent;
2. `BusinessError` if `processo.is_active` is false;
3. look the active version up by `processo_id` and `is_active == True`
   (the query carries no tenant and no soft-delete filter); `BusinessError`
   if absent;
4. construct the Execução, `flush()`, then construct the `ItemFila` with
   `priority=PriorityEnum.NORMAL` — but `PriorityEnum` is not a name of the
   module (it is commented out of the import on line 10), so CPython raises
   `NameError` while evaluating the constructor's arguments.  The exception
   propagates before any `commit()`, so neither row is persisted, and the
   function can never return normally.  The embedding therefore returns the
   raised error and leaves the state untouched; there is no success value to
   return. -/
def trigger_manual_execution (tenant_id processo_id : Nat) (s : LedgerState) :
    AppError :=
  match s.processos.find? (fun p => decide (p.id = processo_id ∧ p.tenant_id = tenant_id)) with
  | none => AppError.notFoundError
  | some processo =>
      if processo.is_active = false then AppError.businessError
      else
        match s.versoes.find? (fun v => decide (v.processo_id = processo_id ∧ v.is_active = true)) with
        | none => AppError.businessError
        | some _ => AppError.nameErrorPriorityEnum

/-- Embeds `ExecutionService.update_execution_status`
(`execution_service.py`, lines 95-147): finds the execution by `id` and
`tenant_id` (`NotFoundError` if absent), assigns `data.status`
unconditionally — there is no transition validation — stamps `end_time`
(the provided one, else `utcnow()` when the new status is COMPLETED or
FAILED), then mirrors COMPLETED/FAILED onto the queue item whose
`execucao_id` matches, and commits. -/
def update_execution_status (now tenant_id execution_id : Nat)
    (data : ExecutionUpdate) (s : LedgerState) :
    Except AppError (Execucao × LedgerState) :=
  match s.execucoes.find? (fun e => decide (e.id = execution_id ∧ e.tenant_id = tenant_id)) with
  | none => Except.error AppError.notFoundError
  | some execucao =>
      let e1 := { execucao with status := data.status }
      let e2 :=
        match data.end_time with
        | some t => { e1 with end_time := some t }
        | none =>
            if data.status = StatusExecucaoEnum.COMPLETED ∨ data.status = StatusExecucaoEnum.FAILED then
              { e1 with end_time := some now }
            else e1
      let itens' :=
        match s.itens.find? (fun i => decide (i.execucao_id = some execution_id ∧ i.tenant_id = tenant_id)) with
        | none => s.itens
        | some item_fila =>
            let item' :=
              if data.status = StatusExecucaoEnum.COMPLETED then
                { item_fila with
                    status := StatusItemFilaEnum.COMPLETED
                    completed_at := some now
                    locked_by := none }
              else if data.status = StatusExecucaoEnum.FAILED then
                { item_fila with
                    status := StatusItemFilaEnum.FAILED
                    completed_at := some now
                    locked_by := none
                    last_error := data.error_details }
              else item_fila
            s.itens.map (fun j => if j.id = item_fila.id then item' else j)
      Except.ok (e2,
        { s with
            execucoes := s.execucoes.map (fun x => if x.id = execucao.id then e2 else x)
            itens := itens' })

/-! ## ProcessService.activate_version -/

/-- The per-row effect of `ProcessService._deactivate_other_versions`
(`process_service.py`, lines 367-398): the selected rows are the
non-deleted versions of the process for the tenant excluding
`keep_version_id`, and `is_active = False` is assigned to those currently
active. -/
def deactRow (tenant_id processo_id keep_version_id : Nat)
    (w : VersaoProcesso) : VersaoProcesso :=
  if w.tenant_id = tenant_id ∧ w.processo_id = processo_id ∧
      w.deleted_at = none ∧ w.id ≠ keep_version_id ∧ w.is_active = true then
    { w with is_active := false }
  else w

/-- Embeds `ProcessService._deactivate_other_versions` over the whole table. -/
def deactivate_other_versions (tenant_id processo_id keep_version_id : Nat)
    (versoes : List VersaoProcesso) : List VersaoProcesso :=
  versoes.map (deactRow tenant_id processo_id keep_version_id)

/-- The per-row effect of `versao.is_active = True` at the end of
`activate_version`. -/
def activateRow (versao_id : Nat) (w : VersaoProcesso) : VersaoProcesso :=
  if w.id = versao_id then { w with is_active := true } else w

/-- Embeds `ProcessService.activate_version` (`process_service.py`, lines 338-365):
resolve the process (tenant-scoped, soft-delete-filtered; `NotFoundError` if
absent), resolve the version by tenant + process + id (soft-delete-filtered;
`NotFoundError` if absent), deactivate every other version of the process,
set `is_active = True` on the target, commit once. -/
def activate_version (tenant_id processo_id versao_id : Nat) (s : LedgerState) :
    Except AppError (LedgerState × VersaoProcesso) :=
  match s.processos.find? (fun p =>
      decide (p.tenant_id = tenant_id ∧ p.id = processo_id ∧ p.deleted_at = none)) with
  | none => Except.error AppError.notFoundError
  | some processo =>
      match s.versoes.find? (fun v =>
          decide (v.tenant_id = tenant_id ∧ v.processo_id = processo.id ∧
            v.id = versao_id ∧ v.deleted_at = none)) with
      | none => Except.error AppError.notFoundError
      | some versao =>
          let deact := deactivate_other_versions tenant_id processo.id versao.id s.versoes
          let final := deact.map (activateRow versao.id)
          Except.ok ({ s with versoes := final }, { versao with is_active := true })

/-! ## Scheduler (`backend/app/services/scheduler.py`) -/

/-- One `agendamento` row as `_trigger_and_update` uses it. -/
structure Agendamento where
  id : Nat
  tenant_id : Nat
  process_id : Option Nat
  name : String
  cron_expression : String
  is_active : Bool
  last_run : Option Nat
  next_run : Nat
deriving DecidableEq, Repr

/-- Embeds `_update_next_run` (`scheduler.py`, lines 85-94).  `croniter` is the
external cron library, abstracted as `cronNext expr now`: `some t` when the
expression parses (with `get_next` returning `t`), `none` when `croniter`
raises.  On a raise the `except` branch only logs and `pass`es — despite its
own comment saying the date is thrown far into the future — so `next_run`
keeps its prior value. -/
def update_next_run (cronNext : String → Nat → Option Nat) (now : Nat)
    (schedule : Agendamento) : Agendamento :=
  match cronNext schedule.cron_expression now with
  | some t => { schedule with next_run := t }
  | none => schedule

/-- Embeds `_trigger_and_update` (`scheduler.py`, lines 45-83).  `triggerOk`
abstracts whether the `trigger_manual_execution` call returned or raised
(the surrounding `try`/`except` catches any exception).  On success,
`last_run = utcnow()` then `_update_next_run`; on failure, only
`_update_next_run` — both branches commit just this schedule, so one
schedule's failure never aborts the others of the pass. -/
def trigger_and_update (cronNext : String → Nat → Option Nat)
    (triggerOk : Bool) (now : Nat) (schedule : Agendamento) : Agendamento :=
  if triggerOk then
    update_next_run cronNext now { schedule with last_run := some now }
  else
    update_next_run cronNext now schedule

/-! ## Basic lemmas about the claim query -/

/-- The accumulator step of `selectNext`. -/
def pickStep (acc : Option ItemFila) (i : ItemFila) : Option ItemFila :=
  match acc with
  | none => some i
  | some a => some (if ordersBefore i a then i else a)

lemma selectNext_eq_foldl (tenant_id : Nat) (queue_name : String)
    (db : List ItemFila) :
    selectNext tenant_id queue_name db =
      (db.filter (claimEligible tenant_id queue_name)).foldl pickStep none := rfl

lemma foldl_pickStep_some (l : List ItemFila) (a : ItemFila) :
    ∃ i, l.foldl pickStep (some a) = some i := by
  induction l generalizing a with
  | nil => exact ⟨a, rfl⟩
  | cons x xs ih =>
      simp only [List.foldl, pickStep]
      exact ih _

lemma foldl_pickStep_mem (l : List ItemFila) (a i : ItemFila)
    (h : l.foldl pickStep (some a) = some i) : i ∈ l ∨ i = a := by
  induction l generalizing a with
  | nil => simp only [List.foldl] at h; exact Or.inr (Option.some.inj h).symm
  | cons x xs ih =>
      simp only [List.foldl, pickStep] at h
      rcases ih _ h with hx | hx
      · exact Or.inl (List.mem_cons_of_mem _ hx)
      · by_cases hb : ordersBefore x a = true
        · rw [if_pos hb] at hx
          exact Or.inl (hx ▸ List.mem_cons_self _ _)
        · rw [if_neg hb] at hx
          exact Or.inr hx

lemma selectNext_mem {tenant_id : Nat} {queue_name : String}
    {db : List ItemFila} {i : ItemFila}
    (h : selectNext tenant_id queue_name db = some i) :
    i ∈ db.filter (claimEligible tenant_id queue_name) := by
  rw [selectNext_eq_foldl] at h
  cases hf : db.filter (claimEligible tenant_id queue_name) with
  | nil =>
      rw [hf] at h
      simp only [List.foldl] at h
      exact absurd h (by simp)
  | cons x xs =>
      rw [hf] at h
      simp only [List.foldl, pickStep] at h
      rcases foldl_pickStep_mem xs x i h with hx | hx
      · exact List.mem_cons_of_mem _ hx
      · rw [hx]; exact List.mem_cons_self _ _

lemma selectNext_of_filter_nil {tenant_id : Nat} {queue_name : String}
    {db : List ItemFila}
    (hf : db.filter (claimEligible tenant_id queue_name) = []) :
    selectNext tenant_id queue_name db = none := by
  rw [selectNext_eq_foldl, hf]; rfl

lemma selectNext_isSome_of_filter_cons {tenant_id : Nat} {queue_name : String}
    {db : List ItemFila} {x : ItemFila} {xs : List ItemFila}
    (hf : db.filter (claimEligible tenant_id queue_name) = x :: xs) :
    ∃ i, selectNext tenant_id queue_name db = some i := by
  rw [selectNext_eq_foldl, hf]
  simp only [List.foldl, pickStep]
  exact foldl_pickStep_some xs x

lemma get_next_item_of_filter_nil {now tenant_id : Nat} {queue_name : String}
    {agent_id : Nat} {db : List ItemFila}
    (hf : db.filter (claimEligible tenant_id queue_name) = []) :
    get_next_item now tenant_id queue_name agent_id db = (none, db) := by
  unfold get_next_item
  rw [selectNext_of_filter_nil hf]

/-- The selected row, once claimed, no longer matches the claim query. -/
lemma claimEligible_claimUpdate (tenant_id : Nat) (queue_name : String)
    (now agent_id : Nat) (i : ItemFila) :
    claimEligible tenant_id queue_name (claimUpdate now agent_id i) = false := by
  simp [claimEligible, claimUpdate]

/-- After claiming the single eligible row, no eligible row remains. -/
lemma filter_after_claim {tenant_id : Nat} {queue_name : String}
    {db : List ItemFila} {j i' : ItemFila}
    (hf : db.filter (claimEligible tenant_id queue_name) = [j])
    (hi' : claimEligible tenant_id queue_name i' = false) :
    ((db.map (fun x => if x.id = j.id then i' else x)).filter
      (claimEligible tenant_id queue_name)) = [] := by
  rw [List.filter_eq_nil_iff]
  intro x hx
  rcases List.mem_map.mp hx with ⟨y, hy, hyx⟩
  by_cases hid : y.id = j.id
  · rw [if_pos hid] at hyx
    rw [← hyx]
    simp [hi']
  · rw [if_neg hid] at hyx
    intro hpx
    have : y ∈ db.filter (claimEligible tenant_id queue_name) :=
      List.mem_filter.mpr ⟨hy, hyx ▸ hpx⟩
    rw [hf] at this
    exact hid (by rw [List.mem_singleton.mp this])

lemma claim_many_of_filter_nil (now tenant_id : Nat) (queue_name : String)
    (agents : List Nat) {db : List ItemFila}
    (hf : db.filter (claimEligible tenant_id queue_name) = []) :
    claim_many now tenant_id queue_name agents db =
      (agents.map (fun _ => none), db) := by
  induction agents with
  | nil => rfl
  | cons a rest ih =>
      simp only [claim_many, get_next_item_of_filter_nil hf, ih, List.map]

/-! ## Concrete fixtures used to instantiate the theorems -/

/-- A pending, unlocked HIGH-priority item, the oldest of queue `q`. -/
def itemHigh : ItemFila :=
  { id := 1, tenant_id := 1, queue_name := "q", priority := PriorityEnum.HIGH,
    status := StatusItemFilaEnum.PENDING, payload := "", retry_count := 0,
    max_retries := 3, deferred_until := none, locked_by := none,
    locked_at := none, completed_at := none, last_error := none,
    created_at := 0, execucao_id := none }

/-- A pending, unlocked NORMAL-priority item created after `itemHigh`. -/
def itemNormal : ItemFila :=
  { itemHigh with id := 2, priority := PriorityEnum.NORMAL, created_at := 1 }

/-- An item that was claimed (status RUNNING, locked at time 0 by agent 1)
and then abandoned. -/
def abandonedItem : ItemFila :=
  { itemHigh with
      status := StatusItemFilaEnum.RUNNING
      locked_by := some 1
      locked_at := some 0 }

/-- A claimed item (one claim so far: `retry_count = 1`) held by agent 5. -/
def itemLeased : ItemFila :=
  { itemHigh with
      status := StatusItemFilaEnum.RUNNING
      locked_by := some 5
      retry_count := 1 }

/-- An item already in the terminal FAILED status. -/
def itemFailedRow : ItemFila :=
  { itemHigh with status := StatusItemFilaEnum.FAILED, completed_at := some 10 }

/-- A completed item sharing the queue with `itemHigh`. -/
def itemDone : ItemFila :=
  { itemHigh with id := 9, status := StatusItemFilaEnum.COMPLETED }

/-- A SYSTEM-class failure report. -/
def sysErr : ExcecaoCreate :=
  { tipo := TipoExcecaoEnum.SYSTEM, severity := SeverityEnum.MEDIUM,
    message := "db timeout", stack_trace := none }

/-! ## C1 -/

/-- C1: the spec claims `get_next_item` returns, among the eligible items,
the one with the highest priority, FIFO within a band.  The `priority`
column is a `VARCHAR` storing the enum's string value, and
`ORDER BY priority DESC` compares those strings, under which
"normal" > "low" > "high" > "critical".  With an eligible HIGH item created
before an eligible NORMAL item, the claim demands the HIGH item; the code
returns the NORMAL one (contradicting its own `# Prioridade Alta primeiro`
comment and the spec's priority-ordering property). -/
theorem c1_claim_priority_order_violated :
    claimEligible 1 "q" itemHigh = true ∧
    itemHigh.priority = PriorityEnum.HIGH ∧
    itemNormal.priority = PriorityEnum.NORMAL ∧
    itemHigh.created_at < itemNormal.created_at ∧
    (get_next_item 100 1 "q" 7 [itemHigh, itemNormal]).1.map (fun i => i.id) =
      some itemNormal.id := by
  decide

/-! ## C3 -/

/-- C3 counterexample: an item claimed at time 0 by agent 1 and never
completed or failed is NOT re-eligible at any later time (here `now` is far
past any lease duration, and agent 2 asks): `get_next_item` returns `none`
and leaves the row untouched, so the claim's lease-expiry recovery does not
exist. -/
theorem c3_counterexample_lease_never_recovered :
    abandonedItem.status = StatusItemFilaEnum.RUNNING ∧
    abandonedItem.locked_by = some 1 ∧
    abandonedItem.locked_at = some 0 ∧
    get_next_item 1000000 1 "q" 2 [abandonedItem] = (none, [abandonedItem]) := by
  decide

/-- C3 (amended): `get_next_item` only ever returns an item whose stored row
had status PENDING and no `locked_by`; the query consults neither
`locked_at` nor any lease-expiry value, so a claimed-but-abandoned item is
permanently ineligible until an explicit `complete_item` or `fail_item`. -/
theorem c3_claimable_only_pending_unlocked
    (now tenant_id : Nat) (queue_name : String) (agent_id : Nat)
    (db db' : List ItemFila) (i : ItemFila)
    (h : get_next_item now tenant_id queue_name agent_id db = (some i, db')) :
    ∃ j ∈ db, j.id = i.id ∧ j.status = StatusItemFilaEnum.PENDING ∧
      j.locked_by = none := by
  unfold get_next_item at h
  cases hsel : selectNext tenant_id queue_name db with
  | none => rw [hsel] at h; exact absurd (congrArg Prod.fst h) (by simp)
  | some j =>
      rw [hsel] at h
      have hmem := selectNext_mem hsel
      have hj : j ∈ db := (List.mem_filter.mp hmem).1
      have hel := of_decide_eq_true (List.mem_filter.mp hmem).2
      have h1 : some (claimUpdate now agent_id j) = some i := congrArg Prod.fst h
      have h2 : claimUpdate now agent_id j = i := Option.some.inj h1
      exact ⟨j, hj, by rw [← h2]; rfl, hel.2.2.1, hel.2.2.2⟩

/-- C3 witness: the amended theorem applied to a one-item queue. -/
theorem c3_witness :
    ∃ j ∈ [itemHigh], j.id = (claimUpdate 100 7 itemHigh).id ∧
      j.status = StatusItemFilaEnum.PENDING ∧ j.locked_by = none :=
  c3_claimable_only_pending_unlocked 100 1 "q" 7 [itemHigh]
    [claimUpdate 100 7 itemHigh] (claimUpdate 100 7 itemHigh) rfl

/-! ## C10 -/

/-- C10: whenever `get_next_item` returns an item, the stored row's
`retry_count` is exactly one more than it was before the call
(`item.retry_count += 1` happens inside the claim, not in `fail_item`). -/
theorem c10_claim_increments_retry_count
    (now tenant_id : Nat) (queue_name : String) (agent_id : Nat)
    (db db' : List ItemFila) (i : ItemFila)
    (h : get_next_item now tenant_id queue_name agent_id db = (some i, db')) :
    ∃ j ∈ db, j.id = i.id ∧ i.retry_count = j.retry_count + 1 ∧ i ∈ db' := by
  unfold get_next_item at h
  cases hsel : selectNext tenant_id queue_name db with
  | none => rw [hsel] at h; exact absurd (congrArg Prod.fst h) (by simp)
  | some j =>
      rw [hsel] at h
      have hmem := selectNext_mem hsel
      have hj : j ∈ db := (List.mem_filter.mp hmem).1
      have h1 : claimUpdate now agent_id j = i :=
        Option.some.inj (congrArg Prod.fst h)
      have h2 : db.map (fun x => if x.id = j.id then claimUpdate now agent_id j else x) = db' :=
        congrArg Prod.snd h
      refine ⟨j, hj, by rw [← h1]; rfl, by rw [← h1]; rfl, ?_⟩
      rw [← h2, ← h1]
      have := List.mem_map_of_mem
        (fun x => if x.id = j.id then claimUpdate now agent_id j else x) hj
      simpa using this

/-- C10 witness: a concrete claim bumps `retry_count` from 0 to 1. -/
theorem c10_witness :
    ∃ j ∈ [itemHigh], j.id = (claimUpdate 100 7 itemHigh).id ∧
      (claimUpdate 100 7 itemHigh).retry_count = j.retry_count + 1 ∧
      claimUpdate 100 7 itemHigh ∈ [claimUpdate 100 7 itemHigh] :=
  c10_claim_increments_retry_count 100 1 "q" 7 [itemHigh]
    [claimUpdate 100 7 itemHigh] (claimUpdate 100 7 itemHigh) rfl

/-! ## C6 -/

lemma selectNext_of_filter_singleton {tenant_id : Nat} {queue_name : String}
    {db : List ItemFila} {j : ItemFila}
    (hf : db.filter (claimEligible tenant_id queue_name) = [j]) :
    selectNext tenant_id queue_name db = some j := by
  rw [selectNext_eq_foldl, hf]; rfl

/-- C6: with exactly one eligible item in the queue, any sequence of claim
steps by N callers hands the item to exactly one of them; the rest get
`none`.  Each `get_next_item` is one atomic step of the store — the
`FOR UPDATE SKIP LOCKED` row lock plus the single-row commit make the
select-and-claim indivisible and hide the selected row from concurrent
claimants — so every concurrent schedule is such a sequence. -/
theorem c6_claim_mutual_exclusion
    (now tenant_id : Nat) (queue_name : String) (agents : List Nat)
    (db : List ItemFila) (hne : agents ≠ [])
    (h1 : (db.filter (claimEligible tenant_id queue_name)).length = 1) :
    (claim_many now tenant_id queue_name agents db).1.length = agents.length ∧
    ((claim_many now tenant_id queue_name agents db).1.countP
      (fun r => r.isSome)) = 1 := by
  obtain ⟨j, hf⟩ := List.length_eq_one.mp h1
  cases agents with
  | nil => exact absurd rfl hne
  | cons a rest =>
      have hg : get_next_item now tenant_id queue_name a db =
          (some (claimUpdate now a j),
            db.map (fun x => if x.id = j.id then claimUpdate now a j else x)) := by
        unfold get_next_item
        rw [selectNext_of_filter_singleton hf]
      have hf' := filter_after_claim hf
        (claimEligible_claimUpdate tenant_id queue_name now a j)
      have hrest := claim_many_of_filter_nil now tenant_id queue_name rest hf'
      simp only [claim_many, hg, hrest]
      constructor
      · simp
      · simp [List.countP_cons, List.countP_map, Function.comp]

/-- C6 witness: three agents, one eligible item. -/
theorem c6_witness :
    (claim_many 100 1 "q" [7, 8, 9] [itemHigh, itemDone]).1.length = 3 ∧
    ((claim_many 100 1 "q" [7, 8, 9] [itemHigh, itemDone]).1.countP
      (fun r => r.isSome)) = 1 :=
  c6_claim_mutual_exclusion 100 1 "q" [7, 8, 9] [itemHigh, itemDone]
    (by decide) (by decide)

/-! ## C2 -/

/-- C2 counterexample: a SYSTEM failure on a claimed item with
`retry_count = 1 < max_retries = 3`.  The claim demands: `retry_count`
incremented to 2, status RETRY, `deferred_until = now + retry_count *
backoffUnit`.  The code leaves `retry_count` at 1, stores status PENDING,
and writes no deferral timestamp. -/
theorem c2_counterexample_system_failure :
    itemLeased.retry_count = 1 ∧ itemLeased.max_retries = 3 ∧
    sysErr.tipo = TipoExcecaoEnum.SYSTEM ∧
    (fail_item 500 1 1 sysErr [itemLeased] []).2.1.map
      (fun i => (i.status, i.retry_count, i.deferred_until)) =
      [(StatusItemFilaEnum.PENDING, 1, none)] ∧
    StatusItemFilaEnum.PENDING ≠ StatusItemFilaEnum.RETRY := by
  decide

/-- C2 (amended): for an existing item, `fail_item` behaves as follows.
If the failure is SYSTEM and `retry_count ≤ max_retries` (non-strict): the
call reports RETRY, the stored row returns to PENDING with the lock
cleared, `retry_count` unchanged (it is incremented at claim time) and no
deferral written.  Otherwise: the call reports FAILED, the stored row
becomes FAILED with `completed_at` stamped and `locked_by` left as it was.
Either way one exception record is appended. -/
theorem c2_fail_item_behaviour
    (now tenant_id item_id : Nat) (erro : ExcecaoCreate)
    (db : List ItemFila) (excs : List Excecao) (item : ItemFila)
    (hfind : db.find? (fun i => decide (i.id = item_id ∧ i.tenant_id = tenant_id)) =
      some item) :
    ((erro.tipo = TipoExcecaoEnum.SYSTEM ∧ item.retry_count ≤ item.max_retries) →
      (fail_item now tenant_id item_id erro db excs).1 = StatusItemFilaEnum.RETRY ∧
      ∃ j ∈ (fail_item now tenant_id item_id erro db excs).2.1,
        j.id = item.id ∧ j.status = StatusItemFilaEnum.PENDING ∧
        j.locked_by = none ∧ j.retry_count = item.retry_count ∧
        j.deferred_until = item.deferred_until) ∧
    (¬(erro.tipo = TipoExcecaoEnum.SYSTEM ∧ item.retry_count ≤ item.max_retries) →
      (fail_item now tenant_id item_id erro db excs).1 = StatusItemFilaEnum.FAILED ∧
      ∃ j ∈ (fail_item now tenant_id item_id erro db excs).2.1,
        j.id = item.id ∧ j.status = StatusItemFilaEnum.FAILED ∧
        j.completed_at = some now ∧ j.locked_by = item.locked_by ∧
        j.retry_count = item.retry_count) ∧
    (fail_item now tenant_id item_id erro db excs).2.2.length = excs.length + 1 := by
  have hitem : item ∈ db := List.mem_of_find?_eq_some hfind
  have heq : fail_item now tenant_id item_id erro db excs =
      if erro.tipo = TipoExcecaoEnum.SYSTEM ∧ item.retry_count ≤ item.max_retries then
        (StatusItemFilaEnum.RETRY,
          db.map (fun j => if j.id = item.id then failRetryRow erro item else j),
          excs ++ [novaExcecao tenant_id erro item])
      else
        (StatusItemFilaEnum.FAILED,
          db.map (fun j => if j.id = item.id then failFailedRow now erro item else j),
          excs ++ [novaExcecao tenant_id erro item]) := by
    unfold fail_item
    rw [hfind]
  refine ⟨?_, ?_, ?_⟩
  · intro hsys
    rw [heq, if_pos hsys]
    refine ⟨rfl, failRetryRow erro item, ?_, rfl, rfl, rfl, rfl, rfl⟩
    have := List.mem_map_of_mem
      (fun j => if j.id = item.id then failRetryRow erro item else j) hitem
    simpa using this
  · intro hns
    rw [heq, if_neg hns]
    refine ⟨rfl, failFailedRow now erro item, ?_, rfl, rfl, rfl, rfl, rfl⟩
    have := List.mem_map_of_mem
      (fun j => if j.id = item.id then failFailedRow now erro item else j) hitem
    simpa using this
  · rw [heq]
    by_cases hsys : erro.tipo = TipoExcecaoEnum.SYSTEM ∧ item.retry_count ≤ item.max_retries
    · rw [if_pos hsys]; simp
    · rw [if_neg hsys]; simp

/-- C2 witness: the amended theorem applied to a concrete SYSTEM failure. -/
theorem c2_witness :
    (fail_item 500 1 1 sysErr [itemLeased] []).1 = StatusItemFilaEnum.RETRY ∧
    (fail_item 500 1 1 sysErr [itemLeased] []).2.2.length = 1 := by
  have h := c2_fail_item_behaviour 500 1 1 sysErr [itemLeased] [] itemLeased rfl
  exact ⟨(h.1 (by decide)).1, h.2.2⟩

/-! ## C9 -/

/-- C9 counterexample: `complete_item` on an item already in terminal
FAILED status is not a no-op — the row is overwritten to COMPLETED. -/
theorem c9_counterexample_complete_overwrites_failed :
    itemFailedRow.status = StatusItemFilaEnum.FAILED ∧
    (complete_item 600 1 1 [itemFailedRow]).map (fun i => i.status) =
      [StatusItemFilaEnum.COMPLETED] ∧
    StatusItemFilaEnum.COMPLETED ≠ StatusItemFilaEnum.FAILED := by
  decide

/-- C9 (amended): `complete_item` sets status COMPLETED, stamps
`completed_at` and clears `locked_by` for ANY existing item of the tenant,
whatever its prior status (so a repeated report is idempotent in status but
an already-FAILED item is overwritten); it is a silent no-op exactly when
no item matches the id and tenant. -/
theorem c9_complete_item_behaviour
    (now tenant_id item_id : Nat) (db : List ItemFila) :
    (db.find? (fun i => decide (i.id = item_id ∧ i.tenant_id = tenant_id)) = none →
      complete_item now tenant_id item_id db = db) ∧
    (∀ item,
      db.find? (fun i => decide (i.id = item_id ∧ i.tenant_id = tenant_id)) = some item →
      ∃ j ∈ complete_item now tenant_id item_id db,
        j.id = item.id ∧ j.status = StatusItemFilaEnum.COMPLETED ∧
        j.completed_at = some now ∧ j.locked_by = none) := by
  constructor
  · intro hnone
    unfold complete_item
    rw [hnone]
  · intro item hfind
    have hitem : item ∈ db := List.mem_of_find?_eq_some hfind
    have heq : complete_item now tenant_id item_id db =
        db.map (fun j => if j.id = item.id then completedRow now item else j) := by
      unfold complete_item
      rw [hfind]
    rw [heq]
    refine ⟨completedRow now item, ?_, rfl, rfl, rfl, rfl⟩
    have := List.mem_map_of_mem
      (fun j => if j.id = item.id then completedRow now item else j) hitem
    simpa using this

/-- C9 witness: the amended theorem applied to the already-FAILED item. -/
theorem c9_witness :
    ∃ j ∈ complete_item 600 1 1 [itemFailedRow],
      j.id = itemFailedRow.id ∧ j.status = StatusItemFilaEnum.COMPLETED ∧
      j.completed_at = some 600 ∧ j.locked_by = none :=
  (c9_complete_item_behaviour 600 1 1 [itemFailedRow]).2 itemFailedRow rfl

/-! ## C7 -/

/-- An active process "P" of tenant 1. -/
def proc10 : Processo :=
  { id := 10, tenant_id := 1, name := "P", is_active := true, deleted_at := none }

/-- The active version 1.0.0 of process 10. -/
def ver20 : VersaoProcesso :=
  { id := 20, tenant_id := 1, processo_id := 10, version := "1.0.0",
    is_active := true, deleted_at := none }

/-- A freshly queued execution of process 10. -/
def exec1 : Execucao :=
  { id := 1, tenant_id := 1, processo_id := 10, versao_id := 20,
    status := StatusExecucaoEnum.QUEUED, end_time := none }

/-- Ledger holding the queued execution. -/
def stE : LedgerState :=
  { processos := [proc10], versoes := [ver20], execucoes := [exec1], itens := [] }

/-- A status-update request asking for COMPLETED. -/
def updCompleted : ExecutionUpdate :=
  { status := StatusExecucaoEnum.COMPLETED, error_details := none, end_time := none }

/-- C7 counterexample: the claim says QUEUED→COMPLETED is rejected or
ignored, leaving the status unchanged; the code applies it. -/
theorem c7_counterexample_queued_to_completed :
    exec1.status = StatusExecucaoEnum.QUEUED ∧
    (update_execution_status 50 1 1 updCompleted stE).map (fun r => r.1.status) =
      Except.ok StatusExecucaoEnum.COMPLETED ∧
    StatusExecucaoEnum.COMPLETED ≠ StatusExecucaoEnum.QUEUED := by
  exact ⟨rfl, rfl, by decide⟩

/-- C7 (amended): `update_execution_status` performs no transition
validation at all: for an existing execution of the tenant it assigns
whatever status is requested (stamping `end_time` on COMPLETED/FAILED and
mirroring those onto the linked queue item); only a missing execution is
rejected, with `NotFoundError`. -/
theorem c7_update_status_unvalidated
    (now tenant_id execution_id : Nat) (data : ExecutionUpdate)
    (s : LedgerState) :
    (s.execucoes.find? (fun e => decide (e.id = execution_id ∧ e.tenant_id = tenant_id)) = none →
      update_execution_status now tenant_id execution_id data s =
        Except.error AppError.notFoundError) ∧
    (∀ e, s.execucoes.find?
        (fun e => decide (e.id = execution_id ∧ e.tenant_id = tenant_id)) = some e →
      ∃ e' s', update_execution_status now tenant_id execution_id data s =
          Except.ok (e', s') ∧ e'.status = data.status ∧ e' ∈ s'.execucoes) := by
  constructor
  · intro hnone
    unfold update_execution_status
    rw [hnone]
  · intro e hfind
    have he : e ∈ s.execucoes := List.mem_of_find?_eq_some hfind
    unfold update_execution_status
    rw [hfind]
    refine ⟨_, _, rfl, ?_, ?_⟩
    · cases hdt : data.end_time with
      | some t => rfl
      | none =>
          by_cases hc : data.status = StatusExecucaoEnum.COMPLETED ∨
            data.status = StatusExecucaoEnum.FAILED
          · rw [if_pos hc]
          · rw [if_neg hc]
    · have := List.mem_map_of_mem
        (fun x => if x.id = e.id then
          (match data.end_time with
            | some t => { e with status := data.status, end_time := some t }
            | none =>
                if data.status = StatusExecucaoEnum.COMPLETED ∨
                    data.status = StatusExecucaoEnum.FAILED then
                  { e with status := data.status, end_time := some now }
                else { e with status := data.status })
          else x) he
      simpa using this

/-- C7 witness: the amended theorem applied to the QUEUED execution. -/
theorem c7_witness :
    ∃ e' s', update_execution_status 50 1 1 updCompleted stE = Except.ok (e', s') ∧
      e'.status = updCompleted.status ∧ e' ∈ s'.execucoes :=
  (c7_update_status_unvalidated 50 1 1 updCompleted stE).2 exec1 rfl

/-! ## C4 -/

/-- Ledger with the active process 10 and its active version 20 but no
executions yet: the exact precondition under which the spec says `trigger`
creates an Execution + Queue Item pair. -/
def st0 : LedgerState :=
  { processos := [proc10], versoes := [ver20], execucoes := [], itens := [] }

/-- C4: triggering an existing, active process with an active version does
not create anything — the call raises `NameError` because
`execution_service.py` uses `PriorityEnum.NORMAL` while `PriorityEnum` is
commented out of the module's import, so the exception propagates before
any commit and neither the Execution nor the Queue Item is persisted. -/
theorem c4_trigger_raises_name_error :
    proc10.is_active = true ∧ ver20.processo_id = proc10.id ∧
    ver20.is_active = true ∧
    trigger_manual_execution 1 10 st0 = AppError.nameErrorPriorityEnum := by
  decide

/-! ## C8 -/

/-- Models `croniter` raising on an unparseable cron expression, as `cronNext`. -/
def cronParseFails : String → Nat → Option Nat := fun _ _ => none

/-- A due schedule (`next_run = 100 ≤ now = 200`) whose cron expression
does not parse. -/
def schedBad : Agendamento :=
  { id := 1, tenant_id := 1, process_id := some 10, name := "nightly",
    cron_expression := "not a cron", is_active := true, last_run := none,
    next_run := 100 }

/-- C8: when the cron expression fails to parse, `_update_next_run`'s
`except` branch only logs and `pass`es, so `next_run` keeps its prior value
(here 100, already due at `now = 200`) instead of being advanced strictly
beyond it — whether the trigger call raised or not.  The schedule therefore
re-fires on every 30-second pass, which both the claim and the code's own
comment say must not happen. -/
theorem c8_next_run_stale_on_cron_parse_error :
    schedBad.next_run ≤ 200 ∧
    (trigger_and_update cronParseFails false 200 schedBad).next_run =
      schedBad.next_run ∧
    (trigger_and_update cronParseFails true 200 schedBad).next_run =
      schedBad.next_run := by
  decide

/-! ## C5 -/

/-- The invariant that at most one version per process is active: any two active,
non-deleted versions of the same tenant and process are the same row. -/
def singleActiveInv (versoes : List VersaoProcesso) : Prop :=
  ∀ w1 ∈ versoes, ∀ w2 ∈ versoes,
    w1.tenant_id = w2.tenant_id → w1.processo_id = w2.processo_id →
    w1.deleted_at = none → w2.deleted_at = none →
    w1.is_active = true → w2.is_active = true → w1 = w2

lemma find?_decide {α : Type} {P : α → Prop} [DecidablePred P] {l : List α} {a : α}
    (h : l.find? (fun x => decide (P x)) = some a) : P a := by
  have h1 := List.find?_some h
  exact of_decide_eq_true h1

lemma activateRow_deactRow_fields (tenant_id processo_id keep_version_id : Nat)
    (w : VersaoProcesso) :
    (activateRow keep_version_id (deactRow tenant_id processo_id keep_version_id w)).id = w.id ∧
    (activateRow keep_version_id (deactRow tenant_id processo_id keep_version_id w)).tenant_id = w.tenant_id ∧
    (activateRow keep_version_id (deactRow tenant_id processo_id keep_version_id w)).processo_id = w.processo_id ∧
    (activateRow keep_version_id (deactRow tenant_id processo_id keep_version_id w)).deleted_at = w.deleted_at := by
  unfold deactRow activateRow
  split <;> split <;> exact ⟨rfl, rfl, rfl, rfl⟩

lemma activateRow_deactRow_of_id_eq (tenant_id processo_id keep_version_id : Nat)
    (w : VersaoProcesso) (h : w.id = keep_version_id) :
    activateRow keep_version_id (deactRow tenant_id processo_id keep_version_id w) =
      { w with is_active := true } := by
  unfold deactRow
  rw [if_neg (fun hc => hc.2.2.2.1 h)]
  unfold activateRow
  rw [if_pos h]

lemma activateRow_deactRow_inactive (tenant_id processo_id keep_version_id : Nat)
    (w : VersaoProcesso) (hne : w.id ≠ keep_version_id)
    (ht : w.tenant_id = tenant_id) (hp : w.processo_id = processo_id)
    (hd : w.deleted_at = none) :
    (activateRow keep_version_id
      (deactRow tenant_id processo_id keep_version_id w)).is_active = false := by
  unfold deactRow activateRow
  split
  · rfl
  · rename_i h1
    cases hw : w.is_active with
    | false => rfl
    | true => exact absurd ⟨ht, hp, hd, hne, hw⟩ h1

lemma activateRow_deactRow_of_not_matching (tenant_id processo_id keep_version_id : Nat)
    (w : VersaoProcesso)
    (hnm : ¬(w.tenant_id = tenant_id ∧ w.processo_id = processo_id))
    (hne : w.id ≠ keep_version_id) :
    activateRow keep_version_id (deactRow tenant_id processo_id keep_version_id w) = w := by
  unfold deactRow
  rw [if_neg (fun hc => hnm ⟨hc.1, hc.2.1⟩)]
  unfold activateRow
  rw [if_neg hne]

lemma activate_ids_preserved (tenant_id processo_id keep_version_id : Nat)
    (versoes : List VersaoProcesso) :
    (((versoes.map (deactRow tenant_id processo_id keep_version_id)).map
      (activateRow keep_version_id)).map (fun w => w.id)) =
      versoes.map (fun w => w.id) := by
  induction versoes with
  | nil => rfl
  | cons x xs ih =>
      simp only [List.map_cons]
      rw [ih]
      congr 1
      exact (activateRow_deactRow_fields tenant_id processo_id keep_version_id x).1

lemma activate_untouched (tenant_id processo_id keep_version_id : Nat)
    {versoes : List VersaoProcesso}
    (hnd : (versoes.map (fun w => w.id)).Nodup)
    {versao : VersaoProcesso} (hvm : versao ∈ versoes)
    (hkid : versao.id = keep_version_id)
    (hkt : versao.tenant_id = tenant_id) (hkp : versao.processo_id = processo_id) :
    ∀ w ∈ (versoes.map (deactRow tenant_id processo_id keep_version_id)).map
        (activateRow keep_version_id),
      ¬(w.tenant_id = tenant_id ∧ w.processo_id = processo_id) → w ∈ versoes := by
  intro w hw hnm
  obtain ⟨z, hz, rfl⟩ := List.mem_map.mp hw
  obtain ⟨y, hy, rfl⟩ := List.mem_map.mp hz
  have hfld := activateRow_deactRow_fields tenant_id processo_id keep_version_id y
  by_cases hyk : y.id = keep_version_id
  · exfalso
    have hy_eq : y = versao :=
      List.inj_on_of_nodup_map hnd hy hvm (by rw [hyk, hkid])
    apply hnm
    constructor
    · rw [hfld.2.1, hy_eq]; exact hkt
    · rw [hfld.2.2.1, hy_eq]; exact hkp
  · have hynm : ¬(y.tenant_id = tenant_id ∧ y.processo_id = processo_id) := by
      intro hc
      exact hnm ⟨by rw [hfld.2.1]; exact hc.1, by rw [hfld.2.2.1]; exact hc.2⟩
    rw [activateRow_deactRow_of_not_matching tenant_id processo_id keep_version_id y hynm hyk]
    exact hy

/-- C5: after a successful `activate_version(tenant, process, version)`,
among the non-deleted versions of that tenant and process exactly the
target version is active (it is returned activated and stored); rows of
other tenants or processes are untouched, so the at-most-one-active
invariant is preserved; and when no version row matches the given tenant,
process and id, the call raises `NotFoundError`.  The whole update is one
transaction (single commit at the end of `activate_version`). -/
theorem c5_activate_version_single_active
    (s : LedgerState) (tenant_id processo_id versao_id : Nat)
    (hnd : (s.versoes.map (fun w => w.id)).Nodup) :
    (∀ s' v', activate_version tenant_id processo_id versao_id s = Except.ok (s', v') →
      v'.id = versao_id ∧ v'.tenant_id = tenant_id ∧ v'.processo_id = processo_id ∧
      v'.is_active = true ∧ v' ∈ s'.versoes ∧
      (∀ w ∈ s'.versoes, w.tenant_id = tenant_id → w.processo_id = processo_id →
        w.deleted_at = none → (w.is_active = true ↔ w.id = versao_id)) ∧
      (singleActiveInv s.versoes → singleActiveInv s'.versoes)) ∧
    ((∀ w ∈ s.versoes, ¬(w.tenant_id = tenant_id ∧ w.processo_id = processo_id ∧
        w.id = versao_id ∧ w.deleted_at = none)) →
      activate_version tenant_id processo_id versao_id s =
        Except.error AppError.notFoundError) := by
  constructor
  · intro s' v' hok
    unfold activate_version at hok
    split at hok
    · exact Except.noConfusion hok
    · rename_i processo hp
      split at hok
      · exact Except.noConfusion hok
      · rename_i versao hv
        have hpp := find?_decide hp
        have hvv := find?_decide hv
        have hvm : versao ∈ s.versoes := List.mem_of_find?_eq_some hv
        have hpair := Except.ok.inj hok
        rw [Prod.mk.injEq] at hpair
        obtain ⟨hs', hv'⟩ := hpair
        subst hs' hv'
        have hiff : ∀ w ∈ (s.versoes.map (deactRow tenant_id processo.id versao.id)).map
            (activateRow versao.id),
            w.tenant_id = tenant_id → w.processo_id = processo_id →
            w.deleted_at = none → (w.is_active = true ↔ w.id = versao_id) := by
          intro w hw ht hpid hdel
          obtain ⟨z, hz, rfl⟩ := List.mem_map.mp hw
          obtain ⟨y, hy, rfl⟩ := List.mem_map.mp hz
          have hfld := activateRow_deactRow_fields tenant_id processo.id versao.id y
          by_cases hyk : y.id = versao.id
          · rw [activateRow_deactRow_of_id_eq tenant_id processo.id versao.id y hyk] at ht hpid hdel ⊢
            constructor
            · intro _
              exact hyk.trans hvv.2.2.1
            · intro _
              rfl
          · have hz : (activateRow versao.id
                (deactRow tenant_id processo.id versao.id y)).is_active = false :=
              activateRow_deactRow_inactive tenant_id processo.id versao.id y hyk
                (by rw [← hfld.2.1]; exact ht)
                (by rw [← hfld.2.2.1]; rw [hpid]; exact hpp.2.1.symm)
                (by rw [← hfld.2.2.2]; exact hdel)
            constructor
            · intro hact
              exact absurd (hz.symm.trans hact) (by decide)
            · intro hid
              exact absurd ((hfld.1.symm.trans hid).trans hvv.2.2.1.symm) hyk
        refine ⟨hvv.2.2.1, hvv.1, hvv.2.1.trans hpp.2.1, rfl, ?_, ?_, ?_⟩
        · have hmem : activateRow versao.id
              (deactRow tenant_id processo.id versao.id versao) ∈
              (s.versoes.map (deactRow tenant_id processo.id versao.id)).map
                (activateRow versao.id) :=
            List.mem_map_of_mem _ (List.mem_map_of_mem _ hvm)
          rw [activateRow_deactRow_of_id_eq tenant_id processo.id versao.id versao rfl] at hmem
          exact hmem
        · exact hiff
        · intro hInv w1 hw1 w2 hw2 hten hproc hdel1 hdel2 hact1 hact2
          have hw1 : w1 ∈ (s.versoes.map (deactRow tenant_id processo.id versao.id)).map
              (activateRow versao.id) := hw1
          have hw2 : w2 ∈ (s.versoes.map (deactRow tenant_id processo.id versao.id)).map
              (activateRow versao.id) := hw2
          by_cases hm : w1.tenant_id = tenant_id ∧ w1.processo_id = processo_id
          · have hm2 : w2.tenant_id = tenant_id ∧ w2.processo_id = processo_id :=
              ⟨by rw [← hten]; exact hm.1, by rw [← hproc]; exact hm.2⟩
            have hid1 : w1.id = versao_id :=
              (hiff w1 hw1 hm.1 hm.2 hdel1).mp hact1
            have hid2 : w2.id = versao_id :=
              (hiff w2 hw2 hm2.1 hm2.2 hdel2).mp hact2
            have hids := activate_ids_preserved tenant_id processo.id versao.id s.versoes
            have hnd' : ((((s.versoes.map (deactRow tenant_id processo.id versao.id)).map
                (activateRow versao.id)).map (fun w => w.id))).Nodup := by
              rw [hids]; exact hnd
            exact List.inj_on_of_nodup_map hnd' hw1 hw2 (hid1.trans hid2.symm)
          · have hm2 : ¬(w2.tenant_id = tenant_id ∧ w2.processo_id = processo_id) :=
              fun hc => hm ⟨by rw [hten]; exact hc.1, by rw [hproc]; exact hc.2⟩
            have hw1s : w1 ∈ s.versoes :=
              activate_untouched tenant_id processo.id versao.id hnd hvm rfl hvv.1
                hvv.2.1 w1 hw1
                (by intro hc; exact hm ⟨hc.1, hc.2.trans hpp.2.1⟩)
            have hw2s : w2 ∈ s.versoes :=
              activate_untouched tenant_id processo.id versao.id hnd hvm rfl hvv.1
                hvv.2.1 w2 hw2
                (by intro hc; exact hm2 ⟨hc.1, hc.2.trans hpp.2.1⟩)
            exact hInv w1 hw1s w2 hw2s hten hproc hdel1 hdel2 hact1 hact2
  · intro hnone
    unfold activate_version
    split
    · rfl
    · rename_i processo hp
      have hpp := find?_decide hp
      split
      · rfl
      · rename_i versao hv
        have hvv := find?_decide hv
        have hvm : versao ∈ s.versoes := List.mem_of_find?_eq_some hv
        exact absurd ⟨hvv.1, hvv.2.1.trans hpp.2.1, hvv.2.2.1, hvv.2.2.2⟩
          (hnone versao hvm)

/-- An inactive second version 2.0.0 of process 10. -/
def ver21 : VersaoProcesso :=
  { ver20 with id := 21, version := "2.0.0", is_active := false }

/-- Registry where v1 (`ver20`) is the active version of process 10. -/
def stV : LedgerState :=
  { processos := [proc10], versoes := [ver20, ver21], execucoes := [], itens := [] }

/-- Row `ver20` after being deactivated by `activate_version`. -/
def ver20off : VersaoProcesso := { ver20 with is_active := false }

/-- Row `ver21` after activation. -/
def ver21on : VersaoProcesso := { ver21 with is_active := true }

/-- The registry after `activate_version 1 10 21`. -/
def stVpost : LedgerState := { stV with versoes := [ver20off, ver21on] }

/-- C5 witness: activating v2 where v1 was active. -/
theorem c5_witness :
    ver21on.id = 21 ∧ ver21on.is_active = true ∧ ver21on ∈ stVpost.versoes := by
  have h := (c5_activate_version_single_active stV 1 10 21 (by decide)).1
    stVpost ver21on rfl
  exact ⟨h.1, h.2.2.2.1, h.2.2.2.2.1⟩

end BotManager
